import Mathlib

/-!
Shallow embedding of the `volatile-register` crate (src/src/lib.rs).

Each register wrapper holds a single backing value.  The volatile
load/store primitives are modelled by making every operation return,
besides its result, the list of memory transactions it emitted at the
backing address.  Non-elision, ordering and counting claims then become
statements about that trace.
-/

namespace VolatileRegister

/-- One volatile memory transaction at the backing address. -/
inductive Event (α : Type) where
  | load (a : α)
  | store (a : α)

/-- Read-Only register: `pub struct RO<T> { register: T }`. -/
structure RO (α : Type) where
  register : α

/-- Read-Write register: `pub struct RW<T> { register: T }`. -/
structure RW (α : Type) where
  register : α

/-- Write-Only register: `pub struct WO<T> { register: UnsafeCell<T> }`.
The cell only relaxes aliasing; the stored payload is a bare `T`. -/
structure WO (α : Type) where
  register : α

/-- `RO::read`: `ptr::read_volatile(&self.register)` — one volatile load of
the backing value.  Returns the value read, the (unchanged) register, and
the emitted transaction trace. -/
def RO.read (self : RO α) : α × RO α × List (Event α) :=
  (self.register, self, [Event.load self.register])

/-- `RW::read`: `ptr::read_volatile(&self.register)` — one volatile load,
the same code as `RO::read`. -/
def RW.read (self : RW α) : α × RW α × List (Event α) :=
  (self.register, self, [Event.load self.register])

/-- `RW::write`: `ptr::write_volatile(&mut self.register, value)` — one
volatile store of `value`.  Returns the updated register and the emitted
transaction trace. -/
def RW.write (_self : RW α) (value : α) : RW α × List (Event α) :=
  ({ register := value }, [Event.store value])

/-- `RW::modify`: `let mut t = self.read(); t = func(t); self.write(t);`. -/
def RW.modify (self : RW α) (func : α → α) : RW α × List (Event α) :=
  let p := RW.read self
  let t := func p.1
  let w := RW.write p.2.1 t
  (w.1, p.2.2 ++ w.2)

/-- `WO::write`: `ptr::write_volatile(self.register.get(), value)` — one
volatile store through the shared cell. -/
def WO.write (_self : WO α) (value : α) : WO α × List (Event α) :=
  ({ register := value }, [Event.store value])

/-- A sequence of `RW::write` calls in program order; the traces of the
individual calls are concatenated in that order. -/
def RW.writeSeq (self : RW α) : List α → RW α × List (Event α)
  | [] => (self, [])
  | v :: vs =>
    let p := RW.write self v
    let q := RW.writeSeq p.1 vs
    (q.1, p.2 ++ q.2)

/-- `RW::modify` interleaved with an out-of-band change to the backing
memory between the volatile load and the volatile store: after the load the
environment (hardware or another execution context) replaces the backing
value `a` by `env a`, and then the store of `modify` happens.  The body is
otherwise `RW.modify` unchanged. -/
def RW.modifyWithEnv (self : RW α) (func : α → α) (env : α → α) :
    RW α × List (Event α) :=
  let p := RW.read self
  let mid : RW α := { register := env p.2.1.register }
  let t := func p.1
  let w := RW.write mid t
  (w.1, p.2.2 ++ w.2)

/-- `RW::modify` with `func` effect-instrumented: besides its result,
`func` returns the list of arguments it was invoked on, so invocation
counts become observable in the embedding.  The body mirrors the source
line by line: read, one application of `func`, write. -/
def RW.modifyInstr (self : RW α) (func : α → List α × α) :
    RW α × List (Event α) × List α :=
  let p := RW.read self
  let q := func p.1
  let w := RW.write p.2.1 q.2
  (w.1, p.2.2 ++ w.2, q.1)

/-- C1: on a read-write register whose backing memory holds `a`,
`modify f` emits exactly one volatile load followed by exactly one
volatile store, in that order (two separate transactions, never a fused
one), the stored value is `f a`, and the backing memory ends equal to
`f a`. -/
theorem C1_modify_one_load_one_store (a : α) (f : α → α) :
    (RW.modify { register := a } f).1.register = f a ∧
    (RW.modify { register := a } f).2 =
      [Event.load a, Event.store (f a)] :=
  ⟨rfl, rfl⟩

/-- C2: on a read-write register, `write v` followed by `read` returns
`v` — the write/read round-trip holds for every value and every starting
register state. -/
theorem C2_write_read_roundtrip (s : RW α) (v : α) :
    (RW.read (RW.write s v).1).1 = v :=
  rfl

/-- C3: a sequence of three writes with values `v1, v2, v1` to the same
read-write register records exactly three store transactions with those
values in program order; none is merged with another or dropped. -/
theorem C3_three_writes_in_order (s : RW α) (v1 v2 : α) :
    (RW.writeSeq s [v1, v2, v1]).2 =
      [Event.store v1, Event.store v2, Event.store v1] ∧
    (RW.writeSeq s [v1, v2, v1]).1.register = v1 :=
  ⟨rfl, rfl⟩

/-- C4: `RO::read` performs a single volatile load, returns the wrapped
value by value, and leaves the register (the only memory in the model)
unchanged — the library never mutates a read-only register. -/
theorem C4_ro_read_returns_value_no_mutation (s : RO α) :
    (RO.read s).1 = s.register ∧
    (RO.read s).2.1 = s ∧
    (RO.read s).2.2 = [Event.load s.register] :=
  ⟨rfl, rfl, rfl⟩

/-- C6: if the backing memory is changed out-of-band (by `env`) between
the load and the store of `modify f`, the final stored value is still `f`
applied to the old, loaded value, and the trace stores exactly that value:
the intervening change is silently lost (last-write-wins); `env` does not
appear in the outcome at all. -/
theorem C6_modify_loses_interleaved_change (s : RW α) (f e : α → α) :
    (RW.modifyWithEnv s f e).1.register = f s.register ∧
    (RW.modifyWithEnv s f e).2 =
      [Event.load s.register, Event.store (f s.register)] :=
  ⟨rfl, rfl⟩

/-- C8: every operation evaluates, as a total function, to a closed form:
`read` and `write` are single one-transaction straight-line accesses, and
`modify f` completes with exactly the two transactions whenever `f` is a
(total, hence terminating) function on the loaded value.  Nothing blocks,
suspends, or recurses. -/
theorem C8_all_operations_terminate_straight_line
    (s : RW α) (r : RO α) (w : WO α) (v : α) (f : α → α) :
    RO.read r = (r.register, r, [Event.load r.register]) ∧
    RW.read s = (s.register, s, [Event.load s.register]) ∧
    RW.write s v = ({ register := v }, [Event.store v]) ∧
    WO.write w v = ({ register := v }, [Event.store v]) ∧
    RW.modify s f =
      ({ register := f s.register },
        [Event.load s.register, Event.store (f s.register)]) :=
  ⟨rfl, rfl, rfl, rfl, rfl⟩

/-- C9: `RW::read` is semantically identical to `RO::read`: on the same
backing value both return the same result, emit the same single volatile
load, and leave the backing value unchanged. -/
theorem C9_rw_read_equals_ro_read (a : α) :
    (RW.read { register := a }).1 = (RO.read { register := a }).1 ∧
    (RW.read { register := a }).2.2 = (RO.read { register := a }).2.2 ∧
    (RW.read { register := a }).2.1.register = a ∧
    (RO.read { register := a }).2.1.register = a :=
  ⟨rfl, rfl, rfl, rfl⟩

/-- C10: instrumenting `func` to log every argument it is invoked on,
`modify` produces the log `[s.register]`: `func` is invoked exactly once,
and its sole argument is exactly the value produced by the volatile load;
moreover the instrumented run coincides with the plain `RW.modify`. -/
theorem C10_func_invoked_exactly_once (s : RW α) (g : α → α) :
    (RW.modifyInstr s (fun x => ([x], g x))).2.2 = [s.register] ∧
    (RW.modifyInstr s (fun x => ([x], g x))).1 = (RW.modify s g).1 ∧
    (RW.modifyInstr s (fun x => ([x], g x))).2.1 = (RW.modify s g).2 :=
  ⟨rfl, rfl, rfl⟩

end VolatileRegister
